import Mathlib

/-
Verification of the block store (store/store.go) of the rollmint repository.

The store persists blocks, commits, chain state, per-height execution
responses and validator-set snapshots in a key-value engine, and keeps an
in-memory height counter.  This file shallowly embeds the store: the engine
is a list of key-value pairs queried in first-match order (a later put
shadows an earlier one, matching overwrite semantics of the engine), bytes
are natural numbers, and the external serialization codecs are a parameter.
Engine and codec failures are injected through explicit flags so that every
error path of the Go code is represented.
-/

set_option autoImplicit false

namespace RollmintStore

/-- Bytes are modelled as natural numbers; a well-formed byte is below 256. -/
abbrev Blob := List Nat

/-- Keys of the key-value engine are Go strings, modelled by their character
sequences. -/
abbrev Key := List Char

/-! ### Key encoding (store.go lines 23-30 and 250-287) -/

/-- Namespace of block records, the Go variable blockPrefix = "b/". -/
def blockPrefix : Key := ['b', '/']

/-- Namespace of height-index records, the Go variable indexPrefix = "i/". -/
def indexPrefix : Key := ['i', '/']

/-- Namespace of commit records, the Go variable commitPrefix = "c/". -/
def commitPrefix : Key := ['c', '/']

/-- Namespace of the chain-state record, the Go variable statePrefix = "s/". -/
def statePrefix : Key := ['s', '/']

/-- Namespace of block-responses records, the Go variable responsesPrefix = "r/". -/
def responsesPrefix : Key := ['r', '/']

/-- Namespace of validator-set records, the Go variable validatorsPrefix = "v/". -/
def validatorsPrefix : Key := ['v', '/']

/-- Digit of a nibble value, lowercase as used by hex.EncodeToString; total,
with an arbitrary default above 15. -/
def hexDigit (n : Nat) : Char := Nat.digitChar n

/-- Model of hex.EncodeToString: every byte becomes two lowercase hex digits,
high nibble first. -/
def hexEncode : Blob → List Char
  | [] => []
  | b :: rest => hexDigit (b / 16) :: hexDigit (b % 16) :: hexEncode rest

/-- Little-endian decimal digits of n, with fuel for structural recursion. -/
def decAux : Nat → Nat → List Nat
  | 0, _ => []
  | _ + 1, 0 => []
  | fuel + 1, n + 1 => (n + 1) % 10 :: decAux fuel ((n + 1) / 10)

/-- Model of strconv.FormatUint(n, 10): decimal text, most significant digit
first, no leading zeros, and "0" for zero. -/
def decRepr (n : Nat) : List Char :=
  if n = 0 then ['0'] else ((decAux n n).reverse.map hexDigit)

/-- Numeric value of a decimal digit character. -/
def digitVal (c : Char) : Nat := c.toNat - 48

/-- Left inverse of decRepr, a proof device for injectivity of decimal keys. -/
def unDec (cs : List Char) : Nat := Nat.ofDigits 10 ((cs.map digitVal).reverse)

/-- Go function getBlockKey: blockPrefix followed by hex of the hash. -/
def getBlockKey (hash : Blob) : Key := blockPrefix ++ hexEncode hash

/-- Go function getCommitKey: commitPrefix followed by hex of the hash. -/
def getCommitKey (hash : Blob) : Key := commitPrefix ++ hexEncode hash

/-- Go function getIndexKey: indexPrefix followed by the decimal height. -/
def getIndexKey (height : Nat) : Key := indexPrefix ++ decRepr height

/-- Go function getStateKey: the bare state namespace. -/
def getStateKey : Key := statePrefix

/-- Go function getResponsesKey: responsesPrefix followed by the decimal height. -/
def getResponsesKey (height : Nat) : Key := responsesPrefix ++ decRepr height

/-- Go function getValidatorsKey: validatorsPrefix followed by the decimal height. -/
def getValidatorsKey (height : Nat) : Key := validatorsPrefix ++ decRepr height

/-! ### The key-value engine (external collaborator) -/

/-- Engine contents: key-value pairs, first match wins on lookup. -/
abbrev KVPairs := List (Key × Blob)

/-- Point lookup in the engine; none models the engine NotFound error. -/
def getKV (kv : KVPairs) (k : Key) : Option Blob :=
  match kv with
  | [] => none
  | (k2, v) :: rest => if k2 = k then some v else getKV rest k

/-- Point put in the engine; the new pair shadows any previous one. -/
def putKV (kv : KVPairs) (k : Key) (v : Blob) : KVPairs := (k, v) :: kv

/-! ### Error taxonomy (section 7 of the spec, mapped from the Go errors) -/

/-- Domain error kinds of the store: the engine NotFound error, a failed
deserialization, the invalid-hash-length corruption error of
loadHashFromIndex, a failed serialization, a failed type assertion to the
badger datastore, a failed NewTransaction, a failed staged Put, and a failed
transaction Commit. -/
inductive ErrKind where
  | notFound
  | decodeError
  | invalidHashLength
  | marshalError
  | unsupportedEngine
  | batchCreationError
  | putError
  | batchCommitError
deriving DecidableEq

/-! ### Record types and codecs (external collaborators of store.go) -/

/-- Modelled from the spec: a block header carries the height, and
Header.Hash() is the 32-byte content hash of the header computed by the
types package (absent from src/); the hash is carried as a field. -/
structure Header where
  height : Nat
  hash : Blob
deriving DecidableEq

/-- Modelled from the spec: a block is its header plus an opaque body. -/
structure Block where
  header : Header
  data : Blob
deriving DecidableEq

/-- Modelled from the spec: a commit is an opaque finalization certificate. -/
structure Commit where
  data : Blob
deriving DecidableEq

/-- Modelled from the spec: the chain state carries the last-block-height
field that seeds the height counter, plus opaque remaining content. -/
structure State where
  lastBlockHeight : Nat
  rest : Blob
deriving DecidableEq

/-- Modelled from the spec: the protobuf form of the chain state produced by
State.ToProto and consumed by State.FromProto. -/
structure PbState where
  lastBlockHeight : Nat
  rest : Blob
deriving DecidableEq

/-- Modelled from the spec: opaque per-height execution responses. -/
structure ABCIResponses where
  data : Blob
deriving DecidableEq

/-- Modelled from the spec: opaque validator-set snapshot. -/
structure ValidatorSet where
  data : Blob
deriving DecidableEq

/-- The Go zero value types.State{} returned by LoadState on failure. -/
def zeroState : State := ⟨0, []⟩

/-- Modelled from the spec: the serialization codecs for Block, Commit,
Chain State, Block Responses and Validator Set are external collaborators
(the types and protobuf packages, absent from src/); they are fallible
encode/decode functions passed as a parameter.  decResp models the mutating
Unmarshal of ABCIResponses: it yields the (possibly partial) receiver value
together with a success flag.  fromProto models the mutating State.FromProto:
it yields the resulting state value together with an optional error. -/
structure Codecs where
  encBlock : Block → Option Blob
  decBlock : Blob → Option Block
  encCommit : Commit → Option Blob
  decCommit : Blob → Option Commit
  toProto : State → Option PbState
  marshalPb : PbState → Option Blob
  decStatePb : Blob → Option PbState
  fromProto : PbState → State × Option ErrKind
  encResp : ABCIResponses → Option Blob
  decResp : Blob → ABCIResponses × Bool
  encValSet : ValidatorSet → Option Blob
  decValSet : Blob → Option ValidatorSet

end RollmintStore

namespace RollmintStore

/-! ### Store state and operations (store.go) -/

/-- The DefaultStore state: the datastore contents and the in-memory height
counter (fields db and height of the Go struct). -/
structure DefaultStore where
  kv : KVPairs
  height : Nat
deriving DecidableEq

/-- Go function SetHeight (store.go 51-56): offer a candidate height; in the
sequential model the compare-and-swap always succeeds, so the counter becomes
the candidate exactly when the candidate is strictly greater. -/
def SetHeight (s : DefaultStore) (height : Nat) : DefaultStore :=
  let storeHeight := s.height
  if height > storeHeight then ⟨s.kv, height⟩ else s

/-- Go function Height (store.go 59-61): read the in-memory counter. -/
def Height (s : DefaultStore) : Nat := s.height

/-- Failure injection for SaveBlock: whether the datastore is the badger
implementation, whether NewTransaction succeeds, whether each of the three
staged puts succeeds, and whether Commit succeeds. -/
structure SaveFailure where
  isBadger : Bool
  newTxOk : Bool
  putBlockOk : Bool
  putCommitOk : Bool
  putIndexOk : Bool
  commitOk : Bool
deriving DecidableEq

/-- Result of SaveBlock: the store after the call, the returned error, and
whether bb.Discard was called before returning. -/
structure SaveOutcome where
  store : DefaultStore
  err : Option ErrKind
  discarded : Bool
deriving DecidableEq

/-- Go method SaveBlock (store.go 65-100): marshal block and commit, open a
transaction, stage the three puts (block by hash, commit by hash, height
index), and commit.  Errors during staging discard the transaction; a commit
applies all three entries atomically; the height counter is not touched. -/
def SaveBlock (c : Codecs) (f : SaveFailure) (s : DefaultStore)
    (block : Block) (commit : Commit) : SaveOutcome :=
  match c.encBlock block with
  | none => ⟨s, some ErrKind.marshalError, false⟩
  | some blockBlob =>
    match c.encCommit commit with
    | none => ⟨s, some ErrKind.marshalError, false⟩
    | some commitBlob =>
      if f.isBadger then
        if f.newTxOk then
          if f.putBlockOk && f.putCommitOk && f.putIndexOk then
            if f.commitOk then
              ⟨⟨putKV (putKV (putKV s.kv (getBlockKey block.header.hash) blockBlob)
                    (getCommitKey block.header.hash) commitBlob)
                  (getIndexKey block.header.height) block.header.hash,
                s.height⟩, none, false⟩
            else ⟨s, some ErrKind.batchCommitError, false⟩
          else ⟨s, some ErrKind.putError, true⟩
        else ⟨s, some ErrKind.batchCreationError, false⟩
      else ⟨s, some ErrKind.unsupportedEngine, false⟩

/-- Go method loadHashFromIndex (store.go 236-248): resolve a height to the
stored hash, failing when the entry is absent or not exactly 32 bytes. -/
def loadHashFromIndex (s : DefaultStore) (height : Nat) : Except ErrKind Blob :=
  match getKV s.kv (getIndexKey height) with
  | none => Except.error ErrKind.notFound
  | some blob =>
    if blob.length = 32 then Except.ok blob else Except.error ErrKind.invalidHashLength

/-- Go method LoadBlockByHash (store.go 115-127): returns the pair of the Go
pointer result (none models nil) and the error. -/
def LoadBlockByHash (c : Codecs) (s : DefaultStore) (hash : Blob) :
    Option Block × Option ErrKind :=
  match getKV s.kv (getBlockKey hash) with
  | none => (none, some ErrKind.notFound)
  | some blockData =>
    match c.decBlock blockData with
    | none => (none, some ErrKind.decodeError)
    | some block => (some block, none)

/-- Go method LoadBlock (store.go 106-112): resolve height to hash, then load
by hash. -/
def LoadBlock (c : Codecs) (s : DefaultStore) (height : Nat) :
    Option Block × Option ErrKind :=
  match loadHashFromIndex s height with
  | Except.error e => (none, some e)
  | Except.ok h => LoadBlockByHash c s h

/-- Go method LoadCommitByHash (store.go 162-173). -/
def LoadCommitByHash (c : Codecs) (s : DefaultStore) (hash : Blob) :
    Option Commit × Option ErrKind :=
  match getKV s.kv (getCommitKey hash) with
  | none => (none, some ErrKind.notFound)
  | some commitData =>
    match c.decCommit commitData with
    | none => (none, some ErrKind.decodeError)
    | some commit => (some commit, none)

/-- Go method LoadCommit (store.go 153-159). -/
def LoadCommit (c : Codecs) (s : DefaultStore) (height : Nat) :
    Option Commit × Option ErrKind :=
  match loadHashFromIndex s height with
  | Except.error e => (none, some e)
  | Except.ok h => LoadCommitByHash c s h

/-- Go method SaveBlockResponses (store.go 130-136). -/
def SaveBlockResponses (c : Codecs) (s : DefaultStore) (height : Nat)
    (responses : ABCIResponses) : DefaultStore × Option ErrKind :=
  match c.encResp responses with
  | none => (s, some ErrKind.marshalError)
  | some data => (⟨putKV s.kv (getResponsesKey height) data, s.height⟩, none)

/-- Go method LoadBlockResponses (store.go 139-150): on a decode failure the
partially filled receiver is returned together with the error. -/
def LoadBlockResponses (c : Codecs) (s : DefaultStore) (height : Nat) :
    Option ABCIResponses × Option ErrKind :=
  match getKV s.kv (getResponsesKey height) with
  | none => (none, some ErrKind.notFound)
  | some data =>
    let res := c.decResp data
    if res.2 then (some res.1, none) else (some res.1, some ErrKind.decodeError)

/-- Go method UpdateState (store.go 177-187): encode the state and put it at
the singleton state key. -/
def UpdateState (c : Codecs) (s : DefaultStore) (state : State) :
    DefaultStore × Option ErrKind :=
  match c.toProto state with
  | none => (s, some ErrKind.marshalError)
  | some pbState =>
    match c.marshalPb pbState with
    | none => (s, some ErrKind.marshalError)
    | some data => (⟨putKV s.kv getStateKey data, s.height⟩, none)

/-- Go method LoadState (store.go 190-205): get the singleton record, decode
it, unconditionally store its last-block-height into the height counter, and
return the state together with the FromProto error. -/
def LoadState (c : Codecs) (s : DefaultStore) :
    DefaultStore × State × Option ErrKind :=
  match getKV s.kv getStateKey with
  | none => (s, zeroState, some ErrKind.notFound)
  | some blob =>
    match c.decStatePb blob with
    | none => (s, zeroState, some ErrKind.decodeError)
    | some pbState =>
      let res := c.fromProto pbState
      (⟨s.kv, res.1.lastBlockHeight⟩, res.1, res.2)

/-- Go method SaveValidators (store.go 208-219). -/
def SaveValidators (c : Codecs) (s : DefaultStore) (height : Nat)
    (validatorSet : ValidatorSet) : DefaultStore × Option ErrKind :=
  match c.encValSet validatorSet with
  | none => (s, some ErrKind.marshalError)
  | some blob => (⟨putKV s.kv (getValidatorsKey height) blob, s.height⟩, none)

/-- Go method LoadValidators (store.go 222-234): the Unmarshal and
ValidatorSetFromProto stages are collapsed into one fallible decode. -/
def LoadValidators (c : Codecs) (s : DefaultStore) (height : Nat) :
    Option ValidatorSet × Option ErrKind :=
  match getKV s.kv (getValidatorsKey height) with
  | none => (none, some ErrKind.notFound)
  | some blob =>
    match c.decValSet blob with
    | none => (none, some ErrKind.decodeError)
    | some v => (some v, none)

/-! ### Concrete fixtures used to evaluate the model on explicit inputs -/

/-- Concrete codecs with everything succeeding: a block is encoded as its
height followed by its 32-byte hash and body, a commit and a validator set as
their bodies, and the state as its last-block-height followed by the rest. -/
def testCodecs : Codecs where
  encBlock := fun b => some (b.header.height :: (b.header.hash ++ b.data))
  decBlock := fun blob =>
    match blob with
    | h :: rest => some ⟨⟨h, rest.take 32⟩, rest.drop 32⟩
    | [] => none
  encCommit := fun cm => some cm.data
  decCommit := fun blob => some ⟨blob⟩
  toProto := fun st => some ⟨st.lastBlockHeight, st.rest⟩
  marshalPb := fun pb => some (pb.lastBlockHeight :: pb.rest)
  decStatePb := fun blob =>
    match blob with
    | h :: rest => some ⟨h, rest⟩
    | [] => none
  fromProto := fun pb => (⟨pb.lastBlockHeight, pb.rest⟩, none)
  encResp := fun r => some r.data
  decResp := fun blob => (⟨blob⟩, true)
  encValSet := fun v => some v.data
  decValSet := fun blob => some ⟨blob⟩

/-- Concrete codecs whose decoders all fail, to exercise decode-error paths;
the responses decoder yields the zero-valued receiver with a failure flag. -/
def failCodecs : Codecs where
  encBlock := fun b => some (b.header.height :: (b.header.hash ++ b.data))
  decBlock := fun _ => none
  encCommit := fun cm => some cm.data
  decCommit := fun _ => none
  toProto := fun st => some ⟨st.lastBlockHeight, st.rest⟩
  marshalPb := fun pb => some (pb.lastBlockHeight :: pb.rest)
  decStatePb := fun _ => none
  fromProto := fun pb => (⟨pb.lastBlockHeight, pb.rest⟩, none)
  encResp := fun r => some r.data
  decResp := fun _ => (⟨[]⟩, false)
  encValSet := fun v => some v.data
  decValSet := fun _ => none

/-- Failure injection in which every engine step succeeds. -/
def allOk : SaveFailure := ⟨true, true, true, true, true, true⟩

/-- Failure injection in which staging the index put fails. -/
def failPutIndex : SaveFailure := ⟨true, true, true, true, false, true⟩

/-- Concrete 32-byte hash. -/
def h0 : Blob := List.replicate 32 0

/-- Concrete block at height 5. -/
def blk5 : Block := ⟨⟨5, h0⟩, [1, 2, 3]⟩

/-- Concrete commit for blk5. -/
def cmt5 : Commit := ⟨[9]⟩

/-- Empty store with counter 0. -/
def store0 : DefaultStore := ⟨[], 0⟩

/-- Store whose counter is 10 while the persisted state records height 5. -/
def cexStore : DefaultStore := ⟨[(getStateKey, [5])], 10⟩

/-- Store with a corrupt (3-byte) index entry at height 7. -/
def badIndexStore : DefaultStore := ⟨[(getIndexKey 7, [1, 2, 3])], 0⟩

/-- Empty store with counter 3. -/
def store3 : DefaultStore := ⟨[], 3⟩

/-- Encoding of blk5 under testCodecs. -/
def wbb : Blob := 5 :: (h0 ++ [1, 2, 3])

/-- Concrete state recording height 5. -/
def wst1 : State := ⟨5, [7]⟩

/-- Concrete state recording height 6. -/
def wst2 : State := ⟨6, [8]⟩

/-- Store holding a responses record, a block record, a commit record and a
validator-set record, for exercising decode-error paths. -/
def respStore : DefaultStore :=
  ⟨[(getResponsesKey 7, [1]), (getBlockKey h0, [2]),
    (getCommitKey h0, [3]), (getValidatorsKey 7, [4])], 0⟩

/-! ### Helper lemmas about the engine model -/

theorem getKV_putKV_same (kv : KVPairs) (k : Key) (v : Blob) :
    getKV (putKV kv k v) k = some v := by
  simp [getKV, putKV]

theorem getKV_putKV_ne (kv : KVPairs) (k k2 : Key) (v : Blob) (h : ¬ k = k2) :
    getKV (putKV kv k v) k2 = getKV kv k2 := by
  simp [getKV, putKV, h]

/-! ### Helper lemmas about key encoding -/

theorem hexDigit_inj16 : ∀ a b : Fin 16, hexDigit a.val = hexDigit b.val → a = b := by
  decide

theorem hexEncode_inj : ∀ l1 l2 : Blob, (∀ b ∈ l1, b < 256) → (∀ b ∈ l2, b < 256) →
    hexEncode l1 = hexEncode l2 → l1 = l2 := by
  intro l1
  induction l1 with
  | nil =>
    intro l2 _ _ hEq
    cases l2 with
    | nil => rfl
    | cons b t => simp [hexEncode] at hEq
  | cons a t ih =>
    intro l2 h1 h2 hEq
    cases l2 with
    | nil => simp [hexEncode] at hEq
    | cons b t2 =>
      simp only [hexEncode, List.cons.injEq] at hEq
      obtain ⟨e1, e2, e3⟩ := hEq
      have ha : a < 256 := h1 a (by simp)
      have hb : b < 256 := h2 b (by simp)
      have q1 := hexDigit_inj16 ⟨a / 16, by omega⟩ ⟨b / 16, by omega⟩ e1
      have q2 := hexDigit_inj16 ⟨a % 16, by omega⟩ ⟨b % 16, by omega⟩ e2
      have r1 : a / 16 = b / 16 := congrArg Fin.val q1
      have r2 : a % 16 = b % 16 := congrArg Fin.val q2
      have hab : a = b := by omega
      subst hab
      have ht : t = t2 :=
        ih t2 (fun x hx => h1 x (by simp [hx])) (fun x hx => h2 x (by simp [hx])) e3
      simp [ht]

theorem decAux_lt10 : ∀ fuel n d, d ∈ decAux fuel n → d < 10 := by
  intro fuel
  induction fuel with
  | zero => intro n d hd; simp [decAux] at hd
  | succ f ih =>
    intro n d hd
    cases n with
    | zero => simp [decAux] at hd
    | succ m =>
      simp only [decAux, List.mem_cons] at hd
      rcases hd with h | h
      · omega
      · exact ih _ _ h

theorem ofDigits_decAux : ∀ fuel n, n ≤ fuel → Nat.ofDigits 10 (decAux fuel n) = n := by
  intro fuel
  induction fuel with
  | zero =>
    intro n hn
    have : n = 0 := by omega
    subst this
    simp [decAux, Nat.ofDigits]
  | succ f ih =>
    intro n hn
    cases n with
    | zero => simp [decAux, Nat.ofDigits]
    | succ m =>
      have hlt : (m + 1) / 10 < m + 1 := Nat.div_lt_self (by omega) (by omega)
      have hih : Nat.ofDigits 10 (decAux f ((m + 1) / 10)) = (m + 1) / 10 :=
        ih _ (by omega)
      simp only [decAux, Nat.ofDigits_cons, hih]
      omega

theorem digitVal_hexDigit : ∀ d : Fin 10, digitVal (hexDigit d.val) = d.val := by
  decide

theorem map_digitVal_hexDigit :
    ∀ l : List Nat, (∀ d ∈ l, d < 10) → l.map (digitVal ∘ hexDigit) = l := by
  intro l
  induction l with
  | nil => intro; rfl
  | cons a t ih =>
    intro h
    have ha : a < 10 := h a (by simp)
    have hd := digitVal_hexDigit ⟨a, ha⟩
    simp only [List.map_cons, Function.comp]
    rw [ih (fun d hd2 => h d (by simp [hd2]))]
    simp_all

theorem unDec_decRepr (n : Nat) : unDec (decRepr n) = n := by
  unfold decRepr
  by_cases hn : n = 0
  · subst hn
    simp [unDec, digitVal, Nat.ofDigits]
  · rw [if_neg hn]
    unfold unDec
    rw [List.map_map]
    rw [map_digitVal_hexDigit _ (fun d hd => decAux_lt10 n n d (List.mem_reverse.mp hd))]
    rw [List.reverse_reverse]
    exact ofDigits_decAux n n le_rfl

theorem decRepr_inj (n m : Nat) (h : decRepr n = decRepr m) : n = m := by
  have h1 := unDec_decRepr n
  have h2 := unDec_decRepr m
  rw [h] at h1
  exact h1.symm.trans h2

theorem indexKey_ne_blockKey (n : Nat) (h : Blob) : ¬ getIndexKey n = getBlockKey h := by
  intro hEq
  simp only [getIndexKey, getBlockKey, indexPrefix, blockPrefix, List.cons_append,
    List.nil_append, List.cons.injEq] at hEq
  exact absurd hEq.1 (by decide)

theorem indexKey_ne_commitKey (n : Nat) (h : Blob) : ¬ getIndexKey n = getCommitKey h := by
  intro hEq
  simp only [getIndexKey, getCommitKey, indexPrefix, commitPrefix, List.cons_append,
    List.nil_append, List.cons.injEq] at hEq
  exact absurd hEq.1 (by decide)

theorem commitKey_ne_blockKey (h1 h2 : Blob) : ¬ getCommitKey h1 = getBlockKey h2 := by
  intro hEq
  simp only [getCommitKey, getBlockKey, commitPrefix, blockPrefix, List.cons_append,
    List.nil_append, List.cons.injEq] at hEq
  exact absurd hEq.1 (by decide)

/-! ### Helper lemmas about the store operations -/

theorem saveBlock_height_eq (c : Codecs) (f : SaveFailure) (s : DefaultStore)
    (b : Block) (cm : Commit) : Height (SaveBlock c f s b cm).store = Height s := by
  rcases hbe : c.encBlock b with _ | bb <;>
    rcases hce : c.encCommit cm with _ | cb <;>
    cases hib : f.isBadger <;> cases hnt : f.newTxOk <;>
    cases hp : (f.putBlockOk && f.putCommitOk && f.putIndexOk) <;>
    cases hc : f.commitOk <;>
    simp [SaveBlock, Height, hbe, hce, hib, hnt, hp, hc]

theorem setHeight_max (s : DefaultStore) (h : Nat) :
    Height (SetHeight s h) = max (Height s) h := by
  by_cases hgt : h > s.height
  · simp only [SetHeight, Height, if_pos hgt]
    omega
  · simp only [SetHeight, Height, if_neg hgt]
    omega

end RollmintStore

namespace RollmintStore

/-! ### Claim theorems -/

/-- C1: the claim states that a successful SaveBlock updates the in-memory
height counter to the maximum of its current value and the block height.  The
code never touches the counter inside SaveBlock, although the Go doc comment
on SaveBlock states that the stored height is updated; this theorem evaluates
the code: the counter is unchanged by SaveBlock for every input, and on the
concrete failing input a fully successful save of a block at height 5 leaves
the counter at 0 instead of 5. -/
theorem C1_saveBlock_leaves_height_unchanged :
    (∀ (c : Codecs) (f : SaveFailure) (s : DefaultStore) (b : Block) (cm : Commit),
      Height (SaveBlock c f s b cm).store = Height s) ∧
    ((SaveBlock testCodecs allOk store0 blk5 cmt5).err = none ∧
      blk5.header.height = 5 ∧
      Height (SaveBlock testCodecs allOk store0 blk5 cmt5).store = 0) :=
  ⟨saveBlock_height_eq, rfl, rfl, rfl⟩

/-- C3 counterexample: the claim states that the height counter is never
decreased by any store operation, LoadState included; but LoadState stores
the loaded last-block-height unconditionally, and on a store whose counter is
10 holding a persisted state recording height 5, LoadState decreases the
counter to 5. -/
theorem C3_loadState_decreases_counter :
    Height (LoadState testCodecs cexStore).1 < Height cexStore := by
  decide

/-- C3 amended: every store operation except LoadState never decreases the
in-memory height counter; SetHeight sets it to the maximum of its current
value and the offered value, and SaveBlock, UpdateState, SaveBlockResponses
and SaveValidators leave it unchanged.  LoadState overwrites it
unconditionally with the loaded last-block-height, which may decrease it. -/
theorem C3_monotone_except_loadState (s : DefaultStore) (h : Nat) :
    Height (SetHeight s h) = max (Height s) h ∧
    (∀ (c : Codecs) (f : SaveFailure) (b : Block) (cm : Commit),
      Height (SaveBlock c f s b cm).store = Height s) ∧
    (∀ (c : Codecs) (st : State), Height (UpdateState c s st).1 = Height s) ∧
    (∀ (c : Codecs) (ht : Nat) (r : ABCIResponses),
      Height (SaveBlockResponses c s ht r).1 = Height s) ∧
    (∀ (c : Codecs) (ht : Nat) (v : ValidatorSet),
      Height (SaveValidators c s ht v).1 = Height s) := by
  refine ⟨setHeight_max s h, fun c f b cm => saveBlock_height_eq c f s b cm, ?_, ?_, ?_⟩
  · intro c st
    rcases hp : c.toProto st with _ | pb
    · simp [UpdateState, Height, hp]
    · rcases hm : c.marshalPb pb with _ | data <;> simp [UpdateState, Height, hp, hm]
  · intro c ht r
    rcases he : c.encResp r with _ | data <;> simp [SaveBlockResponses, Height, he]
  · intro c ht v
    rcases he : c.encValSet v with _ | blob <;> simp [SaveValidators, Height, he]

/-- C5: SetHeight is only effective when the candidate is strictly greater
than the current counter: the resulting counter is the maximum of the
previous value and the candidate, a candidate not above the current value
leaves the store unchanged, SetHeight never touches the engine contents, and
Height reads only the counter, with no engine access. -/
theorem C5_setHeight_effective_iff_greater (s : DefaultStore) (h : Nat) :
    Height (SetHeight s h) = max (Height s) h ∧
    (h ≤ Height s → SetHeight s h = s) ∧
    (SetHeight s h).kv = s.kv ∧
    (∀ (kv1 kv2 : KVPairs) (n : Nat),
      Height ⟨kv1, n⟩ = Height ⟨kv2, n⟩) := by
  refine ⟨setHeight_max s h, ?_, ?_, fun kv1 kv2 n => rfl⟩
  · intro hle
    have : ¬ h > s.height := by
      simp only [Height] at hle
      omega
    simp [SetHeight, this]
  · by_cases hgt : h > s.height <;> simp [SetHeight, hgt]

/-- Witness for C5: on the empty store with counter 3 and candidate 2, the
candidate is not above the counter and the store is left unchanged. -/
theorem C5_setHeight_effective_iff_greater_witness :
    2 ≤ Height store3 ∧ SetHeight store3 2 = store3 :=
  ⟨by decide, (C5_setHeight_effective_iff_greater store3 2).2.1 (by decide)⟩

/-- C2: whenever SaveBlock returns an error, the engine contents are
unchanged, so none of the three entries becomes visible to subsequent reads;
and whenever the batch transaction was partially built when the error arose
(a staged put failed), it was explicitly discarded before the error was
returned. -/
theorem C2_saveBlock_atomic_on_error (c : Codecs) (f : SaveFailure) (s : DefaultStore)
    (b : Block) (cm : Commit) (e : ErrKind)
    (herr : (SaveBlock c f s b cm).err = some e) :
    (SaveBlock c f s b cm).store = s ∧
    (∀ k : Key, getKV (SaveBlock c f s b cm).store.kv k = getKV s.kv k) ∧
    ((SaveBlock c f s b cm).err = some ErrKind.putError →
      (SaveBlock c f s b cm).discarded = true) := by
  obtain ⟨bad, ntx, p1, p2, p3, cok⟩ := f
  rcases hbe : c.encBlock b with _ | bb <;>
    rcases hce : c.encCommit cm with _ | cb <;>
    cases bad <;> cases ntx <;> cases p1 <;> cases p2 <;> cases p3 <;> cases cok <;>
    simp_all [SaveBlock] <;> (subst herr; decide)

/-- Witness for C2: with the index put failing on the empty store, SaveBlock
returns the staging error, leaves the store unchanged and discards the
transaction. -/
theorem C2_saveBlock_atomic_on_error_witness :
    (SaveBlock testCodecs failPutIndex store0 blk5 cmt5).err = some ErrKind.putError ∧
    (SaveBlock testCodecs failPutIndex store0 blk5 cmt5).store = store0 ∧
    (SaveBlock testCodecs failPutIndex store0 blk5 cmt5).discarded = true := by
  have h := C2_saveBlock_atomic_on_error testCodecs failPutIndex store0 blk5 cmt5
    ErrKind.putError (by decide)
  exact ⟨by decide, h.1, h.2.2 (by decide)⟩

/-- C4: for a valid block and commit whose serialization and deserialization
succeed, a successful SaveBlock followed by LoadBlock at the block height or
LoadBlockByHash at the block hash returns exactly the saved block, and the
analogous round-trip holds for LoadCommit and LoadCommitByHash. -/
theorem C4_save_load_roundtrip (c : Codecs) (f : SaveFailure) (s : DefaultStore)
    (b : Block) (cm : Commit) (bb cb : Blob)
    (hlen : b.header.hash.length = 32)
    (heb : c.encBlock b = some bb) (hdb : c.decBlock bb = some b)
    (hec : c.encCommit cm = some cb) (hdc : c.decCommit cb = some cm)
    (hok : (SaveBlock c f s b cm).err = none) :
    LoadBlock c (SaveBlock c f s b cm).store b.header.height = (some b, none) ∧
    LoadBlockByHash c (SaveBlock c f s b cm).store b.header.hash = (some b, none) ∧
    LoadCommit c (SaveBlock c f s b cm).store b.header.height = (some cm, none) ∧
    LoadCommitByHash c (SaveBlock c f s b cm).store b.header.hash = (some cm, none) := by
  cases hib : f.isBadger <;> cases hnt : f.newTxOk <;>
    cases hp1 : f.putBlockOk <;> cases hp2 : f.putCommitOk <;> cases hp3 : f.putIndexOk <;>
    cases hc : f.commitOk <;>
    simp_all [SaveBlock, LoadBlock, LoadCommit, LoadBlockByHash, LoadCommitByHash,
      loadHashFromIndex, getKV_putKV_same, getKV_putKV_ne,
      indexKey_ne_blockKey, indexKey_ne_commitKey, commitKey_ne_blockKey]

/-- Witness for C4: saving blk5 on the empty store and loading it back by its
height and hash yields blk5 and cmt5 again. -/
theorem C4_save_load_roundtrip_witness :
    testCodecs.encBlock blk5 = some wbb ∧
    LoadBlock testCodecs (SaveBlock testCodecs allOk store0 blk5 cmt5).store
      blk5.header.height = (some blk5, none) ∧
    LoadBlockByHash testCodecs (SaveBlock testCodecs allOk store0 blk5 cmt5).store
      blk5.header.hash = (some blk5, none) ∧
    LoadCommit testCodecs (SaveBlock testCodecs allOk store0 blk5 cmt5).store
      blk5.header.height = (some cmt5, none) ∧
    LoadCommitByHash testCodecs (SaveBlock testCodecs allOk store0 blk5 cmt5).store
      blk5.header.hash = (some cmt5, none) := by
  have h := C4_save_load_roundtrip testCodecs allOk store0 blk5 cmt5 wbb [9]
    (by decide) (by decide) (by decide) (by decide) (by decide) (by decide)
  exact ⟨by decide, h.1, h.2.1, h.2.2.1, h.2.2.2⟩

/-- C6: loading by a height whose index entry, block entry or commit entry is
absent fails with the NotFound kind, as do LoadBlockResponses and
LoadValidators on a height never written; an index entry whose stored value
is not exactly 32 bytes makes LoadBlock and LoadCommit fail with the
InvalidHashLength kind, which is distinct from NotFound. -/
theorem C6_load_error_taxonomy (c : Codecs) (s : DefaultStore) (ht : Nat) :
    (getKV s.kv (getIndexKey ht) = none →
      LoadBlock c s ht = (none, some ErrKind.notFound) ∧
      LoadCommit c s ht = (none, some ErrKind.notFound)) ∧
    (getKV s.kv (getResponsesKey ht) = none →
      LoadBlockResponses c s ht = (none, some ErrKind.notFound)) ∧
    (getKV s.kv (getValidatorsKey ht) = none →
      LoadValidators c s ht = (none, some ErrKind.notFound)) ∧
    (∀ hb : Blob, getKV s.kv (getIndexKey ht) = some hb → hb.length = 32 →
      getKV s.kv (getBlockKey hb) = none →
      LoadBlock c s ht = (none, some ErrKind.notFound)) ∧
    (∀ hb : Blob, getKV s.kv (getIndexKey ht) = some hb → hb.length = 32 →
      getKV s.kv (getCommitKey hb) = none →
      LoadCommit c s ht = (none, some ErrKind.notFound)) ∧
    (∀ hb : Blob, getKV s.kv (getIndexKey ht) = some hb → ¬ hb.length = 32 →
      LoadBlock c s ht = (none, some ErrKind.invalidHashLength) ∧
      LoadCommit c s ht = (none, some ErrKind.invalidHashLength)) ∧
    ¬ (ErrKind.invalidHashLength = ErrKind.notFound) := by
  refine ⟨?_, ?_, ?_, ?_, ?_, ?_, by decide⟩
  · intro hidx
    constructor <;> simp [LoadBlock, LoadCommit, loadHashFromIndex, hidx]
  · intro hr
    simp [LoadBlockResponses, hr]
  · intro hv
    simp [LoadValidators, hv]
  · intro hb hidx hlen hmiss
    simp [LoadBlock, loadHashFromIndex, hidx, hlen, LoadBlockByHash, hmiss]
  · intro hb hidx hlen hmiss
    simp [LoadCommit, loadHashFromIndex, hidx, hlen, LoadCommitByHash, hmiss]
  · intro hb hidx hlen
    constructor <;> simp [LoadBlock, LoadCommit, loadHashFromIndex, hidx, hlen]

/-- Witness for C6: on the empty store every load at height 7 fails NotFound,
and on the store with a 3-byte index entry at height 7 LoadBlock fails with
InvalidHashLength. -/
theorem C6_load_error_taxonomy_witness :
    getKV store0.kv (getIndexKey 7) = none ∧
    LoadBlock testCodecs store0 7 = (none, some ErrKind.notFound) ∧
    LoadBlockResponses testCodecs store0 7 = (none, some ErrKind.notFound) ∧
    LoadValidators testCodecs store0 7 = (none, some ErrKind.notFound) ∧
    getKV badIndexStore.kv (getIndexKey 7) = some [1, 2, 3] ∧
    LoadBlock testCodecs badIndexStore 7 = (none, some ErrKind.invalidHashLength) := by
  have h1 := C6_load_error_taxonomy testCodecs store0 7
  have h2 := C6_load_error_taxonomy testCodecs badIndexStore 7
  exact ⟨by decide, (h1.1 (by decide)).1, h1.2.1 (by decide), h1.2.2.1 (by decide),
    by decide, (h2.2.2.2.2.2.1 [1, 2, 3] (by decide) (by decide)).1⟩

/-- C7: on a successful read and protobuf decode of the singleton record,
LoadState returns the decoded state and reseeds the in-memory height counter
to exactly its recorded last-block-height, without comparing it to the
current counter, and leaves the engine contents unchanged. -/
theorem C7_loadState_reseeds_unconditionally (c : Codecs) (s : DefaultStore)
    (blob : Blob) (pb : PbState) (st : State) (e : Option ErrKind)
    (hget : getKV s.kv getStateKey = some blob)
    (hdec : c.decStatePb blob = some pb)
    (hfp : c.fromProto pb = (st, e)) :
    (LoadState c s).1.height = st.lastBlockHeight ∧
    (LoadState c s).2.1 = st ∧
    (LoadState c s).2.2 = e ∧
    (LoadState c s).1.kv = s.kv := by
  simp [LoadState, hget, hdec, hfp]

/-- Witness for C7: on the store whose counter is 10 and whose persisted
state records height 5, LoadState sets the counter to exactly 5. -/
theorem C7_loadState_reseeds_unconditionally_witness :
    getKV cexStore.kv getStateKey = some [5] ∧
    Height cexStore = 10 ∧
    (LoadState testCodecs cexStore).1.height = 5 := by
  have h := C7_loadState_reseeds_unconditionally testCodecs cexStore [5]
    ⟨5, []⟩ ⟨5, []⟩ none (by decide) (by decide) (by decide)
  exact ⟨by decide, by decide, h.1⟩

/-- C8: for states whose encoding and decoding succeed, UpdateState followed
by LoadState returns exactly the stored state, and a second UpdateState fully
replaces the first: LoadState then returns the second state with no error. -/
theorem C8_updateState_loadState_roundtrip (c : Codecs) (s : DefaultStore)
    (st1 st2 : State) (pb1 pb2 pb1r pb2r : PbState) (bl1 bl2 : Blob)
    (h1 : c.toProto st1 = some pb1) (h2 : c.marshalPb pb1 = some bl1)
    (h3 : c.decStatePb bl1 = some pb1r) (h4 : c.fromProto pb1r = (st1, none))
    (h5 : c.toProto st2 = some pb2) (h6 : c.marshalPb pb2 = some bl2)
    (h7 : c.decStatePb bl2 = some pb2r) (h8 : c.fromProto pb2r = (st2, none)) :
    (UpdateState c s st1).2 = none ∧
    (LoadState c (UpdateState c s st1).1).2.1 = st1 ∧
    (LoadState c (UpdateState c s st1).1).2.2 = none ∧
    (UpdateState c (UpdateState c s st1).1 st2).2 = none ∧
    (LoadState c (UpdateState c (UpdateState c s st1).1 st2).1).2.1 = st2 ∧
    (LoadState c (UpdateState c (UpdateState c s st1).1 st2).1).2.2 = none := by
  simp [UpdateState, LoadState, h1, h2, h3, h4, h5, h6, h7, h8,
    getKV_putKV_same]

/-- Witness for C8: storing the state of height 5 and then the state of
height 6 on the empty store makes LoadState return the state of height 6. -/
theorem C8_updateState_loadState_roundtrip_witness :
    (LoadState testCodecs (UpdateState testCodecs store0 wst1).1).2.1 = wst1 ∧
    (LoadState testCodecs
      (UpdateState testCodecs (UpdateState testCodecs store0 wst1).1 wst2).1).2.1 = wst2 := by
  have h := C8_updateState_loadState_roundtrip testCodecs store0 wst1 wst2
    ⟨5, [7]⟩ ⟨6, [8]⟩ ⟨5, [7]⟩ ⟨6, [8]⟩ (5 :: [7]) (6 :: [8])
    (by decide) (by decide) (by decide) (by decide)
    (by decide) (by decide) (by decide) (by decide)
  exact ⟨h.2.1, h.2.2.2.2.1⟩

/-- C9: key derivation is deterministic and collision-free: block keys are
the b-slash namespace followed by the lowercase hexadecimal of the hash,
commit keys the c-slash namespace with the same encoding, index keys the
i-slash namespace with the decimal height, responses and validators keys the
r-slash and v-slash namespaces with the decimal height, and the chain-state
key is the bare s-slash namespace; within each class the key function is
injective (on 32-byte hashes, that is byte lists with entries below 256), and
keys of distinct classes are never equal. -/
theorem C9_key_derivation :
    (∀ h : Blob, getBlockKey h = blockPrefix ++ hexEncode h) ∧
    (∀ h : Blob, getCommitKey h = commitPrefix ++ hexEncode h) ∧
    (∀ n : Nat, getIndexKey n = indexPrefix ++ decRepr n) ∧
    getStateKey = statePrefix ∧
    (∀ n : Nat, getResponsesKey n = responsesPrefix ++ decRepr n) ∧
    (∀ n : Nat, getValidatorsKey n = validatorsPrefix ++ decRepr n) ∧
    (∀ h1 h2 : Blob, (∀ b ∈ h1, b < 256) → (∀ b ∈ h2, b < 256) →
      getBlockKey h1 = getBlockKey h2 → h1 = h2) ∧
    (∀ h1 h2 : Blob, (∀ b ∈ h1, b < 256) → (∀ b ∈ h2, b < 256) →
      getCommitKey h1 = getCommitKey h2 → h1 = h2) ∧
    (∀ n m : Nat, getIndexKey n = getIndexKey m → n = m) ∧
    (∀ n m : Nat, getResponsesKey n = getResponsesKey m → n = m) ∧
    (∀ n m : Nat, getValidatorsKey n = getValidatorsKey m → n = m) ∧
    (∀ h1 h2 : Blob, ¬ getBlockKey h1 = getCommitKey h2) ∧
    (∀ (h : Blob) (n : Nat), ¬ getBlockKey h = getIndexKey n) ∧
    (∀ h : Blob, ¬ getBlockKey h = getStateKey) ∧
    (∀ (h : Blob) (n : Nat), ¬ getBlockKey h = getResponsesKey n) ∧
    (∀ (h : Blob) (n : Nat), ¬ getBlockKey h = getValidatorsKey n) ∧
    (∀ (h : Blob) (n : Nat), ¬ getCommitKey h = getIndexKey n) ∧
    (∀ h : Blob, ¬ getCommitKey h = getStateKey) ∧
    (∀ (h : Blob) (n : Nat), ¬ getCommitKey h = getResponsesKey n) ∧
    (∀ (h : Blob) (n : Nat), ¬ getCommitKey h = getValidatorsKey n) ∧
    (∀ n : Nat, ¬ getIndexKey n = getStateKey) ∧
    (∀ n m : Nat, ¬ getIndexKey n = getResponsesKey m) ∧
    (∀ n m : Nat, ¬ getIndexKey n = getValidatorsKey m) ∧
    (∀ n : Nat, ¬ getStateKey = getResponsesKey n) ∧
    (∀ n : Nat, ¬ getStateKey = getValidatorsKey n) ∧
    (∀ n m : Nat, ¬ getResponsesKey n = getValidatorsKey m) := by
  refine ⟨fun h => rfl, fun h => rfl, fun n => rfl, rfl, fun n => rfl, fun n => rfl,
    ?_, ?_, ?_, ?_, ?_, ?_, ?_, ?_, ?_, ?_, ?_, ?_, ?_, ?_, ?_, ?_, ?_, ?_, ?_, ?_⟩
  · intro h1 h2 hb1 hb2 hEq
    simp only [getBlockKey, blockPrefix, List.cons_append, List.nil_append,
      List.cons.injEq, true_and] at hEq
    exact hexEncode_inj h1 h2 hb1 hb2 hEq
  · intro h1 h2 hb1 hb2 hEq
    simp only [getCommitKey, commitPrefix, List.cons_append, List.nil_append,
      List.cons.injEq, true_and] at hEq
    exact hexEncode_inj h1 h2 hb1 hb2 hEq
  · intro n m hEq
    simp only [getIndexKey, indexPrefix, List.cons_append, List.nil_append,
      List.cons.injEq, true_and] at hEq
    exact decRepr_inj n m hEq
  · intro n m hEq
    simp only [getResponsesKey, responsesPrefix, List.cons_append, List.nil_append,
      List.cons.injEq, true_and] at hEq
    exact decRepr_inj n m hEq
  · intro n m hEq
    simp only [getValidatorsKey, validatorsPrefix, List.cons_append, List.nil_append,
      List.cons.injEq, true_and] at hEq
    exact decRepr_inj n m hEq
  · intro h1 h2 hEq
    simp only [getBlockKey, getCommitKey, blockPrefix, commitPrefix, List.cons_append,
      List.nil_append, List.cons.injEq] at hEq
    exact absurd hEq.1 (by decide)
  · intro h n hEq
    simp only [getBlockKey, getIndexKey, blockPrefix, indexPrefix, List.cons_append,
      List.nil_append, List.cons.injEq] at hEq
    exact absurd hEq.1 (by decide)
  · intro h hEq
    simp only [getBlockKey, getStateKey, blockPrefix, statePrefix, List.cons_append,
      List.nil_append, List.cons.injEq] at hEq
    exact absurd hEq.1 (by decide)
  · intro h n hEq
    simp only [getBlockKey, getResponsesKey, blockPrefix, responsesPrefix,
      List.cons_append, List.nil_append, List.cons.injEq] at hEq
    exact absurd hEq.1 (by decide)
  · intro h n hEq
    simp only [getBlockKey, getValidatorsKey, blockPrefix, validatorsPrefix,
      List.cons_append, List.nil_append, List.cons.injEq] at hEq
    exact absurd hEq.1 (by decide)
  · intro h n hEq
    simp only [getCommitKey, getIndexKey, commitPrefix, indexPrefix, List.cons_append,
      List.nil_append, List.cons.injEq] at hEq
    exact absurd hEq.1 (by decide)
  · intro h hEq
    simp only [getCommitKey, getStateKey, commitPrefix, statePrefix, List.cons_append,
      List.nil_append, List.cons.injEq] at hEq
    exact absurd hEq.1 (by decide)
  · intro h n hEq
    simp only [getCommitKey, getResponsesKey, commitPrefix, responsesPrefix,
      List.cons_append, List.nil_append, List.cons.injEq] at hEq
    exact absurd hEq.1 (by decide)
  · intro h n hEq
    simp only [getCommitKey, getValidatorsKey, commitPrefix, validatorsPrefix,
      List.cons_append, List.nil_append, List.cons.injEq] at hEq
    exact absurd hEq.1 (by decide)
  · intro n hEq
    simp only [getIndexKey, getStateKey, indexPrefix, statePrefix, List.cons_append,
      List.nil_append, List.cons.injEq] at hEq
    exact absurd hEq.1 (by decide)
  · intro n m hEq
    simp only [getIndexKey, getResponsesKey, indexPrefix, responsesPrefix,
      List.cons_append, List.nil_append, List.cons.injEq] at hEq
    exact absurd hEq.1 (by decide)
  · intro n m hEq
    simp only [getIndexKey, getValidatorsKey, indexPrefix, validatorsPrefix,
      List.cons_append, List.nil_append, List.cons.injEq] at hEq
    exact absurd hEq.1 (by decide)
  · intro n hEq
    simp only [getStateKey, getResponsesKey, statePrefix, responsesPrefix,
      List.cons_append, List.nil_append, List.cons.injEq] at hEq
    exact absurd hEq.1 (by decide)
  · intro n hEq
    simp only [getStateKey, getValidatorsKey, statePrefix, validatorsPrefix,
      List.cons_append, List.nil_append, List.cons.injEq] at hEq
    exact absurd hEq.1 (by decide)
  · intro n m hEq
    simp only [getResponsesKey, getValidatorsKey, responsesPrefix, validatorsPrefix,
      List.cons_append, List.nil_append, List.cons.injEq] at hEq
    exact absurd hEq.1 (by decide)

/-- Witness for C9: injectivity applied at the concrete 32-byte hash and at
height 7. -/
theorem C9_key_derivation_witness :
    (∀ b ∈ h0, b < 256) ∧ h0 = h0 ∧ (7 : Nat) = 7 := by
  refine ⟨by decide, ?_, ?_⟩
  · exact C9_key_derivation.2.2.2.2.2.2.1 h0 h0 (by decide) (by decide) rfl
  · exact C9_key_derivation.2.2.2.2.2.2.2.2.1 7 7 rfl

/-- C10: when the stored bytes for a height fail to deserialize,
LoadBlockResponses returns the partially decoded responses record together
with the decode error, while LoadBlock, LoadBlockByHash, LoadCommitByHash and
LoadValidators return the nil pointer (modelled by none) alongside the decode
error. -/
theorem C10_responses_partial_on_decode_error (c : Codecs) (s : DefaultStore) (ht : Nat)
    (data : Blob) (r : ABCIResponses)
    (hget : getKV s.kv (getResponsesKey ht) = some data)
    (hdec : c.decResp data = (r, false)) :
    LoadBlockResponses c s ht = (some r, some ErrKind.decodeError) ∧
    (∀ (hsh bd : Blob), getKV s.kv (getBlockKey hsh) = some bd →
      c.decBlock bd = none →
      LoadBlockByHash c s hsh = (none, some ErrKind.decodeError)) ∧
    (∀ (hsh cd : Blob), getKV s.kv (getCommitKey hsh) = some cd →
      c.decCommit cd = none →
      LoadCommitByHash c s hsh = (none, some ErrKind.decodeError)) ∧
    (∀ vd : Blob, getKV s.kv (getValidatorsKey ht) = some vd →
      c.decValSet vd = none →
      LoadValidators c s ht = (none, some ErrKind.decodeError)) ∧
    (∀ (hb bd : Blob), getKV s.kv (getIndexKey ht) = some hb → hb.length = 32 →
      getKV s.kv (getBlockKey hb) = some bd → c.decBlock bd = none →
      LoadBlock c s ht = (none, some ErrKind.decodeError)) := by
  refine ⟨?_, ?_, ?_, ?_, ?_⟩
  · simp [LoadBlockResponses, hget, hdec]
  · intro hsh bd hg hd
    simp [LoadBlockByHash, hg, hd]
  · intro hsh cd hg hd
    simp [LoadCommitByHash, hg, hd]
  · intro vd hg hd
    simp [LoadValidators, hg, hd]
  · intro hb bd hidx hlen hg hd
    simp [LoadBlock, loadHashFromIndex, hidx, hlen, LoadBlockByHash, hg, hd]

/-- Witness for C10: on the store holding records at height 7 and hash h0,
with the failing codecs, LoadBlockResponses yields a non-nil record together
with the decode error while LoadBlockByHash yields none. -/
theorem C10_responses_partial_on_decode_error_witness :
    LoadBlockResponses failCodecs respStore 7 = (some ⟨[]⟩, some ErrKind.decodeError) ∧
    LoadBlockByHash failCodecs respStore h0 = (none, some ErrKind.decodeError) ∧
    LoadValidators failCodecs respStore 7 = (none, some ErrKind.decodeError) := by
  have h := C10_responses_partial_on_decode_error failCodecs respStore 7 [1] ⟨[]⟩
    (by decide) (by decide)
  exact ⟨h.1, h.2.1 h0 [2] (by decide) (by decide), h.2.2.2.1 [4] (by decide) (by decide)⟩

end RollmintStore
